import Mathlib

/-!
Shallow embedding of the V-toolchain acquisition logic of the `vscode-vlang`
extension (source file `src/unnamed/part_001`, together with its callers in
`src/src/extension.ts`).  Pure string manipulation is embedded directly;
stateful filesystem / network / subprocess behaviour is embedded as explicit
state passing over a small filesystem state, with the outcomes of external
effects (HTTP fetches, archive extraction, subprocess runs) supplied as
environment records.
-/

deriving instance DecidableEq for Except

namespace VlangExt

/-! Section: JavaScript string primitives, over `List Char` -/

/-- Whitespace recognised by the JavaScript `\s` class / `String.prototype.trim`
(ASCII part; the version strings handled by the source are ASCII). -/
def jsIsSpace (c : Char) : Bool :=
  c = ' ' || c = '\t' || c = '\n' || c = '\r' || c = '\x0b' || c = '\x0c'

/-- Drop leading whitespace. -/
def dropSpace : List Char → List Char
  | [] => []
  | c :: cs => if jsIsSpace c then dropSpace cs else c :: cs

/-- JavaScript `value.trim()`: remove leading and trailing whitespace. -/
def jsTrim (l : List Char) : List Char :=
  ((dropSpace ((dropSpace l).reverse)).reverse)

/-- Test whether `needle` starts the list `hay` (JS `startsWith`). -/
def lcStarts : List Char → List Char → Bool
  | [], _ => true
  | _ :: _, [] => false
  | a :: as, b :: bs => a == b && lcStarts as bs

/-- Test whether `needle` ends the list `hay` (JS `endsWith`). -/
def lcEnds (needle hay : List Char) : Bool :=
  lcStarts needle.reverse hay.reverse

/-- Test whether `needle` occurs somewhere in `hay` (JS `includes`). -/
def lcHas (needle : List Char) : List Char → Bool
  | [] => lcStarts needle []
  | c :: cs => lcStarts needle (c :: cs) || lcHas needle cs

/-- JavaScript `toLowerCase` (ASCII part, which is all the source exercises). -/
def toLowerList (l : List Char) : List Char :=
  l.map Char.toLower

/-- Lowercase a whole string. -/
def lowerStr (s : String) : String :=
  ⟨toLowerList s.data⟩

/-- Split off the maximal leading run of decimal digits. -/
def splitDigits : List Char → List Char × List Char
  | [] => ([], [])
  | c :: cs =>
    if c.isDigit then
      let p := splitDigits cs
      (c :: p.1, p.2)
    else ([], c :: cs)

/-! Section: The two regular expressions of `extractVersionIdentifier`

`/weekly\.\d{4}\.\d+/` and `/(\d+\.\d+\.\d+)/`, both used via
`String.prototype.match` (leftmost match, greedy `\d+`). -/

/-- Match `weekly\.\d{4}\.\d+` anchored at the head of the list, returning the
matched characters (the trailing `\d+` is greedy). -/
def matchWeeklyAt (l : List Char) : Option (List Char) :=
  let pre := "weekly.".data
  if lcStarts pre l then
    match l.drop pre.length with
    | d1 :: d2 :: d3 :: d4 :: '.' :: rest =>
      if d1.isDigit && d2.isDigit && d3.isDigit && d4.isDigit then
        let run := (splitDigits rest).1
        if run.isEmpty then none
        else some (pre ++ [d1, d2, d3, d4, '.'] ++ run)
      else none
    | _ => none
  else none

/-- Leftmost match of `weekly\.\d{4}\.\d+` (JS `string.match` without `g`). -/
def findWeekly : List Char → Option (List Char)
  | [] => none
  | c :: cs =>
    match matchWeeklyAt (c :: cs) with
    | some m => some m
    | none => findWeekly cs

/-- Match `\d+\.\d+\.\d+` anchored at the head of the list.  Greedy `\d+`
followed by a literal dot is equivalent to taking the maximal digit run. -/
def matchSemverAt (l : List Char) : Option (List Char) :=
  let p1 := splitDigits l
  if p1.1.isEmpty then none else
  match p1.2 with
  | '.' :: rest2 =>
    let p2 := splitDigits rest2
    if p2.1.isEmpty then none else
    match p2.2 with
    | '.' :: rest4 =>
      let p3 := splitDigits rest4
      if p3.1.isEmpty then none
      else some (p1.1 ++ '.' :: p2.1 ++ '.' :: p3.1)
    | _ => none
  | _ => none

/-- Leftmost match of `(\d+\.\d+\.\d+)`. -/
def findSemver : List Char → Option (List Char)
  | [] => none
  | c :: cs =>
    match matchSemverAt (c :: cs) with
    | some m => some m
    | none => findSemver cs

/-- JavaScript `normalized.replace(/^v[\s-]?/, "")` on an already lowercased
list: strip one leading `v` together with at most one following whitespace or
hyphen character. -/
def stripLeadingV : List Char → List Char
  | 'v' :: c :: rest => if jsIsSpace c || c = '-' then rest else c :: rest
  | 'v' :: [] => []
  | l => l

/-! Section: `extractVersionIdentifier` and `isUpToDate`
(source lines 501–518 of `src/unnamed/part_001`) -/

/-- The normalisation `value.trim().toLowerCase()`. -/
def normalizeVersion (s : String) : List Char :=
  toLowerList (jsTrim s.data)

/-- Embedding of `extractVersionIdentifier(value)`.  `none` plays the role of
`undefined`; the JS falsiness test `!value` is true for both `undefined` and
the empty string. -/
def extractVersionIdentifier (value : Option String) : Option String :=
  match value with
  | none => none
  | some s =>
    if s = "" then none
    else
      let normalized := normalizeVersion s
      if normalized = [] then none
      else
        match findWeekly normalized with
        | some w => some ⟨w⟩
        | none =>
          match findSemver normalized with
          | some t => some ⟨t⟩
          | none => some ⟨stripLeadingV normalized⟩

/-- Embedding of `isUpToDate(currentVersion, targetVersion)`.  The JS guards
`if (!target)` / `if (!current)` are falsy tests, hence also true for the
empty string. -/
def isUpToDate (currentVersion targetVersion : Option String) : Bool :=
  match extractVersionIdentifier targetVersion with
  | none => false
  | some t =>
    if t = "" then false
    else
      match extractVersionIdentifier currentVersion with
      | none => false
      | some c => if c = "" then false else c == t

/-! Section: GitHub release data model (interfaces `GitHubAsset`, `GitHubRelease`,
`ReleaseAssetInfo` of `src/unnamed/part_001`) -/

structure GitHubAsset where
  name : String
  browser_download_url : String
deriving DecidableEq, Repr

structure GitHubRelease where
  draft : Bool
  prerelease : Bool
  tag_name : String
  assets : List GitHubAsset
deriving DecidableEq, Repr

structure ReleaseAssetInfo where
  url : String
  version : String
deriving DecidableEq, Repr

/-- The distinct `throw new Error(...)` sites of the acquisition code. -/
inductive VErr where
  | fetchReleasesFailed (status : Nat)
  | fetchLatestFailed (status : Nat)
  | unexpectedPayload
  | noStableRelease
  | noMatchingBinary
  | downloadFailed (url : String)
  | extractFailed (url : String)
  | unknownArchive (url : String)
  | customPathMissing
  | buildFailed
  | removeFailed
deriving DecidableEq, Repr

/-! Section: `selectAssetForPlatform` (source lines 83–134) -/

/-- The inner `matchAsset(needles, bans)` closure: first asset whose lowercase
name contains every needle and no ban. -/
def matchAsset (assets : List GitHubAsset) (needles : List String)
    (bans : List String) : Option GitHubAsset :=
  let wanted := needles.map lowerStr
  let blocked := bans.map lowerStr
  assets.find? fun asset =>
    let name := lowerStr asset.name
    wanted.all (fun fragment => lcHas fragment.data name.data) &&
      !(blocked.any fun fragment => lcHas fragment.data name.data)

/-- Embedding of `selectAssetForPlatform(assets)`.  `process.platform` and
`process.arch` are environmental inputs, passed explicitly. -/
def selectAssetForPlatform (platform arch : String) (assets : List GitHubAsset) :
    Option GitHubAsset :=
  if platform = "win32" then
    (matchAsset assets ["v_windows"] []).orElse fun _ =>
      (matchAsset assets ["windows"] []).orElse fun _ =>
        matchAsset assets ["win"] ["arm"]
  else if platform = "linux" then
    if arch = "arm64" then
      (matchAsset assets ["v_linux_arm64"] []).orElse fun _ =>
        (matchAsset assets ["linux", "arm64"] []).orElse fun _ =>
          matchAsset assets ["linux", "aarch64"] []
    else
      (matchAsset assets ["v_linux"] ["arm64", "aarch64"]).orElse fun _ =>
        matchAsset assets ["linux"] ["arm64", "aarch64"]
  else if platform = "darwin" then
    if arch = "arm64" then
      (matchAsset assets ["v_macos_arm64"] []).orElse fun _ =>
        (matchAsset assets ["macos", "arm64"] []).orElse fun _ =>
          matchAsset assets ["darwin", "arm64"] []
    else
      (matchAsset assets ["v_macos_x86_64"] []).orElse fun _ =>
        (matchAsset assets ["macos", "x86_64"] []).orElse fun _ =>
          (matchAsset assets ["macos", "x64"] []).orElse fun _ =>
            (matchAsset assets ["darwin", "x64"] []).orElse fun _ =>
              matchAsset assets ["macos"] []
  else none

/-! Section: Release resolution (`getLatestStableAssetUrl`, `getLatestAssetUrl`,
source lines 271–335) -/

/-- Outcome of the `fetch` of the full release list.  `items` models the JSON
array after `res.json()`: each element is either a value passing the
`isGitHubRelease` shape guard (`some r`) or a malformed entry (`none`). -/
structure StableFetchEnv where
  ok : Bool
  status : Nat
  isArray : Bool
  items : List (Option GitHubRelease)
deriving DecidableEq, Repr

/-- Outcome of the `fetch` of `releases/latest`.  `payload = none` models a
body that fails the `isGitHubRelease` shape guard. -/
structure LatestFetchEnv where
  ok : Bool
  status : Nat
  payload : Option GitHubRelease
deriving DecidableEq, Repr

/-- The filter of the "first non-weekly, non-draft, non-prerelease release"
`find` (source line 290). -/
def stableFilter (release : GitHubRelease) : Bool :=
  !release.draft && !release.prerelease &&
    !(lcStarts "weekly.".data release.tag_name.data)

/-- Embedding of `getLatestStableAssetUrl()`. -/
def getLatestStableAssetUrl (f : StableFetchEnv) (platform arch : String) :
    Except VErr ReleaseAssetInfo :=
  if f.ok = false then .error (.fetchReleasesFailed f.status)
  else if f.isArray = false then .error .unexpectedPayload
  else
    let releases := f.items.filterMap id
    match releases.find? stableFilter with
    | none => .error .noStableRelease
    | some stable =>
      match selectAssetForPlatform platform arch stable.assets with
      | none => .error .noMatchingBinary
      | some asset => .ok ⟨asset.browser_download_url, stable.tag_name⟩

/-- Embedding of `getLatestAssetUrl()`. -/
def getLatestAssetUrl (f : LatestFetchEnv) (platform arch : String) :
    Except VErr ReleaseAssetInfo :=
  if f.ok = false then .error (.fetchLatestFailed f.status)
  else
    match f.payload with
    | none => .error .unexpectedPayload
    | some release =>
      match selectAssetForPlatform platform arch release.assets with
      | none => .error .noMatchingBinary
      | some asset => .ok ⟨asset.browser_download_url, release.tag_name⟩

/-! Section: Filesystem model for `installVFromAsset` (source lines 337–429)

The paths the function touches, all under the storage directory
`USER_BIN_PATH`: the previous install directory `vDir = <storage>/v`, the
final executable path `vExecPath = <storage>/v[.exe]`, and the temporary
archive `tmpFile = <storage>/<basename(assetUrl)>`. -/

/-- A file: abstract content plus whether the executable permission bit is set. -/
structure VFile where
  content : Nat
  execBit : Bool
deriving DecidableEq, Repr

/-- State of the three modelled locations. -/
structure FsState where
  vDir : Bool
  vExec : Option VFile
  tmpFile : Option Nat
deriving DecidableEq, Repr

/-- Filesystem operations `installVFromAsset` performs, in program order. -/
inductive FsOp where
  | rmVDir
  | rmVExec
  | rmTmp
  | writeTmp (content : Nat)
  | extractArchive
  | deleteTmp
  | chmodExec
  | renameToVExec
deriving DecidableEq, Repr

/-- Externally-determined outcomes of one `installVFromAsset` run: whether each
`fs`/network/archive/subprocess call succeeds, and what the archive contains. -/
structure InstallEnv where
  rmDirOk : Bool
  rmExecOk : Bool
  downloadOk : Bool
  downloadedContent : Nat
  partialTmp : Option Nat
  extractOk : Bool
  extractedDir : Bool
  extractedExec : Option VFile
  pExtractDir : Bool
  pExtractExec : Option VFile
  symlinkOk : Bool
  postVersionOut : Option String
deriving DecidableEq, Repr

/-- Result of a run: the promise outcome, the final state, and the trace of
filesystem operations with the state right after each. -/
structure InstallRun where
  result : Except VErr Unit
  final : FsState
  trace : List (FsOp × FsState)
deriving DecidableEq, Repr

/-- The best-effort cleanup block (source lines 357–367): remove the previous
install directory, then any stray executable at the final path; a failure of
either `rm` aborts the rest of the block but is swallowed (`console.warn`). -/
def cleanupPrevious (env : InstallEnv) (s : FsState) :
    FsState × List (FsOp × FsState) :=
  if s.vDir then
    if env.rmDirOk then
      let s1 : FsState := { s with vDir := false }
      if s1.vExec.isSome then
        if env.rmExecOk then
          let s2 : FsState := { s1 with vExec := none }
          (s2, [(.rmVDir, s1), (.rmVExec, s2)])
        else (s1, [(.rmVDir, s1)])
      else (s1, [(.rmVDir, s1)])
    else (s, [])
  else
    if s.vExec.isSome then
      if env.rmExecOk then
        let s1 : FsState := { s with vExec := none }
        (s1, [(.rmVExec, s1)])
      else (s, [])
    else (s, [])

/-- Everything after a successful extraction (source lines 388–427): delete the
temporary archive, best-effort symlink (no modelled filesystem effect), set the
executable bit when a file exists at the final path, and run the post-install
check (`isVInstalled` catches its own errors, so this tail never rejects). -/
def finishInstall (s4 : FsState) (pre : List (FsOp × FsState)) : InstallRun :=
  let s5 : FsState := { s4 with tmpFile := none }
  if s5.vExec.isSome then
    let s6 : FsState :=
      { s5 with vExec := s5.vExec.map fun f => { f with execBit := true } }
    { result := .ok ()
      final := s6
      trace := pre ++ [(.deleteTmp, s5), (.chmodExec, s6)] }
  else
    { result := .ok ()
      final := s5
      trace := pre ++ [(.deleteTmp, s5)] }

/-- Embedding of `installVFromAsset(assetUrl, tagName, isUpdate)` acting on a
filesystem state.  The zip and tar.gz extractors are modelled identically
(their effects are supplied by `env`); files the archive does not contain are
left as extraction found them. -/
def installVFromAsset (env : InstallEnv) (assetUrl : String) (_tagName : String)
    (_isUpdate : Bool) (s0 : FsState) : InstallRun :=
  let c := cleanupPrevious env s0
  let s1 := c.1
  let t1 := c.2
  -- fs.mkdirSync(storageDir, { recursive: true }) : no modelled effect
  let s2 : FsState := if s1.tmpFile.isSome then { s1 with tmpFile := none } else s1
  let t2 : List (FsOp × FsState) :=
    if s1.tmpFile.isSome then t1 ++ [(.rmTmp, s2)] else t1
  if env.downloadOk = false then
    -- fetch failed or the stream broke: a partial file may sit at the tmp path
    { result := .error (.downloadFailed assetUrl)
      final := { s2 with tmpFile := env.partialTmp }
      trace := t2 }
  else
    let s3 : FsState := { s2 with tmpFile := some env.downloadedContent }
    let t3 := t2 ++ [(.writeTmp env.downloadedContent, s3)]
    let lowerUrl := (lowerStr assetUrl).data
    if lcEnds ".zip".data lowerUrl || lcEnds ".tar.gz".data lowerUrl then
      if env.extractOk = false then
        let s4 : FsState :=
          { s3 with
            vDir := s3.vDir || env.pExtractDir
            vExec := match env.pExtractExec with
              | some f => some f
              | none => s3.vExec }
        { result := .error (.extractFailed assetUrl)
          final := s4
          trace := t3 ++ [(.extractArchive, s4)] }
      else
        let s4 : FsState :=
          { s3 with
            vDir := s3.vDir || env.extractedDir
            vExec := match env.extractedExec with
              | some f => some f
              | none => s3.vExec }
        finishInstall s4 (t3 ++ [(.extractArchive, s4)])
    else
      { result := .error (.unknownArchive assetUrl)
        final := s3
        trace := t3 }

/-! Section: Probing, removal, source build and orchestration
(source lines 144–269 and 445–544, plus the `activate` caller in
`src/src/extension.ts`) -/

/-- Return value of `isVInstalled()`. -/
structure VInstalledStatus where
  installed : Bool
  version : Option String
deriving DecidableEq, Repr

/-- Embedding of `isVInstalled()`: `versionOut` is the stdout of
`v --version` when the command succeeds, `none` when it fails.  The empty
trimmed output is mapped to `undefined` (`versionText || undefined`).
The function catches its own errors and never rejects. -/
def isVInstalled (versionOut : Option String) : VInstalledStatus :=
  match versionOut with
  | none => ⟨false, none⟩
  | some out =>
    let versionText : List Char := jsTrim out.data
    ⟨true, if versionText = [] then none else some ⟨versionText⟩⟩

/-- Embedding of `findVBinary()`: first line of `which v` / `where v` output,
trimmed; `null` when the command fails or the line is empty. -/
def findVBinary (whichOut : Option String) : Option String :=
  match whichOut with
  | none => none
  | some out =>
    let firstLine := jsTrim (out.data.takeWhile fun c => !(c == '\n'))
    if firstLine = [] then none else some ⟨firstLine⟩

/-- Environment for `removeV()`: the `which`/`where` probe, whether the found
path exists, and whether the `unlink` succeeds. -/
structure RemoveEnv where
  whichOut : Option String
  binaryFileExists : Bool
  unlinkOk : Bool
deriving DecidableEq, Repr

/-- Embedding of `removeV()` (source lines 253–269): a missing binary is a
logged no-op; a failing `unlink` shows an error and rethrows. -/
def removeV (e : RemoveEnv) : Except VErr Unit :=
  match findVBinary e.whichOut with
  | none => .ok ()
  | some _ =>
    if e.binaryFileExists = false then .ok ()
    else if e.unlinkOk then .ok () else .error .removeFailed

/-- Environment for `buildVfromPath()`: the configured `v.buildPath`, whether
it exists, and whether `make` and the symlink succeed. -/
structure BuildEnv where
  buildPath : Option String
  pathExists : Bool
  makeOk : Bool
  symlinkOk : Bool
deriving DecidableEq, Repr

/-- Embedding of `buildVfromPath()` (source lines 185–238).  The guard
`!vRepoPath || !fs.existsSync(vRepoPath)` treats the empty string as missing;
`make` failure rethrows; symlink failure is downgraded to a warning. -/
def buildVfromPath (b : BuildEnv) : Except VErr String :=
  match b.buildPath with
  | none => .error .customPathMissing
  | some p =>
    if p = "" then .error .customPathMissing
    else if b.pathExists = false then .error .customPathMissing
    else if b.makeOk = false then .error .buildFailed
    else .ok (p ++ "/v")

/-- All external inputs of one orchestration pass. -/
structure OrchEnv where
  forceCleanInstall : Bool
  releaseChannel : Option String
  platform : String
  arch : String
  removeEnv : RemoveEnv
  vVersionOut : Option String
  userChoice : Option String
  stableFetch : StableFetchEnv
  latestFetch : LatestFetchEnv
  installEnv : InstallEnv
  buildEnv : BuildEnv
  nightlyUpOut : Option String
deriving DecidableEq, Repr

/-- Embedding of `installV()` (source lines 164–183): dispatch on the
configured `v.releaseChannel`; the `switch` default (unset or unrecognized
value) builds from the configured source path. -/
def installV (e : OrchEnv) (s : FsState) : Except VErr Unit × FsState :=
  match e.releaseChannel with
  | some c =>
    if c = "stable" then
      match getLatestStableAssetUrl e.stableFetch e.platform e.arch with
      | .error er => (.error er, s)
      | .ok info =>
        let run := installVFromAsset e.installEnv info.url info.version false s
        (run.result, run.final)
    else if c = "nightly" then
      match getLatestAssetUrl e.latestFetch e.platform e.arch with
      | .error er => (.error er, s)
      | .ok info =>
        let run := installVFromAsset e.installEnv info.url info.version false s
        (run.result, run.final)
    else if c = "custom" then ((buildVfromPath e.buildEnv).map fun _ => (), s)
    else ((buildVfromPath e.buildEnv).map fun _ => (), s)
  | none => ((buildVfromPath e.buildEnv).map fun _ => (), s)

/-- What one `checkUpdates` pass did.  `failed` is an error caught and logged
by the surrounding `try`/`catch` — it is never re-raised. -/
inductive UpdateOutcome where
  | skippedCustom
  | nightlySelfUpdate (succeeded : Bool)
  | upToDate (version : String)
  | updated (version : String)
  | failed (err : VErr)
deriving DecidableEq, Repr

/-- The stable branch of `checkUpdates` (source lines 533–540): resolve the
latest stable asset, compare versions, reinstall with `isUpdate = true` when
stale; errors are caught by the enclosing `try`/`catch`. -/
def stableUpdateCheck (e : OrchEnv) (s : FsState) : UpdateOutcome × FsState :=
  match getLatestStableAssetUrl e.stableFetch e.platform e.arch with
  | .error er => (.failed er, s)
  | .ok latest =>
    let status := isVInstalled e.vVersionOut
    if isUpToDate status.version (some latest.version) then
      (.upToDate latest.version, s)
    else
      let run := installVFromAsset e.installEnv latest.url latest.version true s
      match run.result with
      | .ok _ => (.updated latest.version, run.final)
      | .error er => (.failed er, run.final)

/-- Embedding of `checkUpdates(releaseChannel)` (source lines 520–544).
`releaseChannel ?? "stable"`; `custom` skips; `nightly` delegates to
`updateNightlyBuild` (which catches its own errors); everything else runs the
stable check.  The whole body after the `custom` test sits in a
`try`/`catch`, so the function never rejects. -/
def checkUpdates (e : OrchEnv) (releaseChannel : Option String) (s : FsState) :
    UpdateOutcome × FsState :=
  let channel := releaseChannel.getD "stable"
  if channel = "custom" then (.skippedCustom, s)
  else if channel = "nightly" then
    (.nightlySelfUpdate e.nightlyUpOut.isSome, s)
  else stableUpdateCheck e s

/-- Embedding of `handleVinstallation()` (source lines 474–499), the
orchestration entry point awaited by `activate` without a `try`/`catch`.
A rejection of `removeV` or `installV` propagates to the caller. -/
def handleVinstallation (e : OrchEnv) (s : FsState) : Except VErr Unit × FsState :=
  match (if e.forceCleanInstall then removeV e.removeEnv else .ok ()) with
  | .error er => (.error er, s)
  | .ok _ =>
    let status := isVInstalled e.vVersionOut
    if status.installed = false then
      if e.userChoice = some "Yes" then installV e s
      else (.ok (), s)
    else (.ok (), (checkUpdates e e.releaseChannel s).2)

/-! Section: token shape predicates used by the weekly-versus-semver claims -/

/-- Test whether a token starts with the weekly marker `weekly.` (every token
produced by the weekly rule does). -/
def weeklyTokenStart (s : String) : Bool :=
  lcStarts "weekly.".data s.data

/-- Test whether a token is exactly a `major.minor.patch` numeric triple, the
shape of every token produced by the semver rule. -/
def semverTriple (s : String) : Bool :=
  matchSemverAt s.data == some s.data

/-! Section: concrete releases, environments and states used to evaluate the
claims on explicit inputs -/

def draftRelease : GitHubRelease :=
  ⟨true, false, "0.4.11", [⟨"v_linux_arm64.tar.gz", "https://g/draft.tar.gz"⟩]⟩

def preRelease : GitHubRelease :=
  ⟨false, true, "0.4.10", [⟨"v_linux_arm64.tar.gz", "https://g/pre.tar.gz"⟩]⟩

def stableRelease : GitHubRelease :=
  ⟨false, false, "0.4.9", [⟨"v_linux_arm64.tar.gz", "https://g/stable.tar.gz"⟩]⟩

/-- A release list whose qualifying stable release sits behind a draft and a
prerelease. -/
def listFetch : StableFetchEnv :=
  ⟨true, 200, true, [some draftRelease, some preRelease, some stableRelease]⟩

/-- A release-list fetch that fails with HTTP 500. -/
def failedFetch : StableFetchEnv := ⟨false, 500, true, []⟩

/-- An install run in which every external step succeeds; the archive contains
the `v` directory and a binary (without the executable bit) at the final path. -/
def smoothInstall : InstallEnv :=
  ⟨true, true, true, 9, none, true, true, some ⟨7, false⟩, false, none, true,
    some "V 0.4.9"⟩

/-- An install run whose download fails after a successful cleanup. -/
def brokenDownload : InstallEnv :=
  ⟨true, true, false, 0, none, true, false, none, false, none, true, none⟩

/-- A state with a healthy binary already installed at the final path. -/
def priorState : FsState := ⟨false, some ⟨42, true⟩, none⟩

def buildOk : BuildEnv := ⟨some "/home/dev/vsource", true, true, true⟩

def removeNothing : RemoveEnv := ⟨none, false, true⟩

/-- Orchestration pass: stable channel, no V on the system, user consents,
release-list fetch fails. -/
def freshInstallEnv : OrchEnv :=
  ⟨false, some "stable", "linux", "arm64", removeNothing, none, some "Yes",
    failedFetch, ⟨false, 500, none⟩, smoothInstall, buildOk, none⟩

/-- Orchestration pass: V installed at 0.4.8, stable channel, fetch succeeds. -/
def installedEnv : OrchEnv :=
  { freshInstallEnv with vVersionOut := some "V 0.4.8", stableFetch := listFetch }

/-- Orchestration pass with an unrecognized release channel. -/
def oddChannelEnv : OrchEnv :=
  { installedEnv with releaseChannel := some "vnext" }

/-! Section: helper lemmas -/

theorem find?_all_none {α : Type} (p : α → Bool) :
    ∀ l : List α, (∀ x ∈ l, p x = false) → l.find? p = none := by
  intro l h
  rw [List.find?_eq_none]
  intro x hx
  simp [h x hx]

theorem find?_append_first {α : Type} (p : α → Bool) :
    ∀ (pre : List α) (r : α) (post : List α),
      (∀ x ∈ pre, p x = false) → p r = true →
      (pre ++ r :: post).find? p = some r := by
  intro pre
  induction pre with
  | nil => intro r post _ hr; simp [List.find?, hr]
  | cons a t ih =>
    intro r post h hr
    have ha : p a = false := h a (List.mem_cons_self a t)
    simp only [List.cons_append, List.find?, ha]
    exact ih r post (fun x hx => h x (List.mem_cons_of_mem a hx)) hr

theorem splitDigits_head (l : List Char) (c : Char) (cs : List Char)
    (h : (splitDigits l).1 = c :: cs) : c.isDigit = true := by
  cases l with
  | nil => simp [splitDigits] at h
  | cons x xs =>
    by_cases hx : x.isDigit
    · simp [splitDigits, hx] at h
      rw [← h.1]; exact hx
    · simp [splitDigits, hx] at h

theorem matchSemverAt_head (l m : List Char) (h : matchSemverAt l = some m) :
    ∃ c cs, m = c :: cs ∧ c.isDigit = true := by
  simp only [matchSemverAt] at h
  by_cases h1 : (splitDigits l).1.isEmpty
  · simp [h1] at h
  · simp only [h1, Bool.false_eq_true, if_false] at h
    rcases hr1 : (splitDigits l).1 with _ | ⟨c, cs⟩
    · rw [hr1] at h1; simp at h1
    · have hc : c.isDigit = true := splitDigits_head l c cs hr1
      rw [hr1] at h
      split at h
      · split at h
        · simp at h
        · split at h
          · split at h
            · simp at h
            · injection h with h
              rw [List.cons_append] at h
              exact ⟨c, _, h.symm, hc⟩
          · simp at h
      · simp at h

theorem findSemver_head (l m : List Char) (h : findSemver l = some m) :
    ∃ c cs, m = c :: cs ∧ c.isDigit = true := by
  induction l with
  | nil => simp [findSemver] at h
  | cons c cs ih =>
    rw [findSemver] at h
    cases hm : matchSemverAt (c :: cs) with
    | none => rw [hm] at h; exact ih h
    | some mm =>
      rw [hm] at h
      injection h with h2
      rw [← h2]
      exact matchSemverAt_head _ mm hm

theorem lcStarts_cons (a : Char) (as l : List Char) (h : lcStarts (a :: as) l = true) :
    ∃ bs, l = a :: bs ∧ lcStarts as bs = true := by
  cases l with
  | nil => simp [lcStarts] at h
  | cons b bs =>
    rw [lcStarts] at h
    simp at h
    exact ⟨bs, by rw [h.1], h.2⟩

theorem string_ne_of_data_ne (s t : String) (h : s.data ≠ t.data) : s ≠ t :=
  fun he => h (by rw [he])

theorem cleanupPrevious_ok (env : InstallEnv) (s : FsState)
    (h1 : env.rmDirOk = true) (h2 : env.rmExecOk = true) :
    (cleanupPrevious env s).1 = ⟨false, none, s.tmpFile⟩ := by
  rcases s with ⟨vd, ve, tf⟩
  cases vd <;> cases ve <;> simp [cleanupPrevious, h1, h2]

theorem cleanupPrevious_ops (env : InstallEnv) (s : FsState) :
    ∀ p ∈ (cleanupPrevious env s).2, p.1 = FsOp.rmVDir ∨ p.1 = FsOp.rmVExec := by
  rcases s with ⟨vd, ve, tf⟩
  by_cases hd : env.rmDirOk <;> by_cases he : env.rmExecOk <;>
    cases vd <;> cases ve <;>
      simp [cleanupPrevious, hd, he]

theorem cleanup_no_rename (env : InstallEnv) (s : FsState) (b : FsState) :
    (FsOp.renameToVExec, b) ∉ (cleanupPrevious env s).2 := by
  intro hmem
  rcases cleanupPrevious_ops env s _ hmem with h | h <;> cases h

/-! Section: claim theorems -/

/-- C9: given the asset names ["app_windows_x64.zip", "app_linux_arm64.tar.gz",
"app_macos_arm64.tar.gz"] on a Linux/arm64 host, `selectAssetForPlatform`
returns the second asset; it does so by scanning its ordered candidate rules
(for that host: `v_linux_arm64`, then `linux`+`arm64`, then `linux`+`aarch64`)
and, within a rule, returning the first asset whose lowercase name contains
every required substring and none of the excluded ones. -/
theorem c9_linux_arm64_asset_selection :
    selectAssetForPlatform "linux" "arm64"
        [⟨"app_windows_x64.zip", "u1"⟩, ⟨"app_linux_arm64.tar.gz", "u2"⟩,
          ⟨"app_macos_arm64.tar.gz", "u3"⟩]
      = some ⟨"app_linux_arm64.tar.gz", "u2"⟩
    ∧ (∀ assets, selectAssetForPlatform "linux" "arm64" assets =
        (matchAsset assets ["v_linux_arm64"] []).orElse fun _ =>
          (matchAsset assets ["linux", "arm64"] []).orElse fun _ =>
            matchAsset assets ["linux", "aarch64"] [])
    ∧ (∀ assets needles bans, matchAsset assets needles bans =
        assets.find? fun asset =>
          (needles.map lowerStr).all
              (fun fragment => lcHas fragment.data (lowerStr asset.name).data) &&
            !((bans.map lowerStr).any
              fun fragment => lcHas fragment.data (lowerStr asset.name).data)) := by
  refine ⟨by decide, fun assets => rfl, fun assets needles bans => rfl⟩

/-- C7: the up-to-date check returns false whenever canonicalization of either
side yields none; in particular `isUpToDate(undefined, "1.2.3")` and
`isUpToDate("1.2.3", undefined)` are both false. -/
theorem c7_unknown_never_up_to_date :
    (∀ cur tgt : Option String,
        extractVersionIdentifier cur = none ∨ extractVersionIdentifier tgt = none →
        isUpToDate cur tgt = false)
    ∧ isUpToDate none (some "1.2.3") = false
    ∧ isUpToDate (some "1.2.3") none = false := by
  refine ⟨?_, by decide, by decide⟩
  intro cur tgt h
  rcases h with h | h
  · cases he : extractVersionIdentifier tgt with
    | none => simp [isUpToDate, he]
    | some t => simp [isUpToDate, he, h]
  · simp [isUpToDate, h]

/-- Witness for C7: a whitespace-only current version canonicalizes to none,
and the check indeed reports not up to date. -/
theorem c7_witness : isUpToDate (some "   ") (some "1.2.3") = false :=
  c7_unknown_never_up_to_date.1 (some "   ") (some "1.2.3") (Or.inl (by decide))

/-- C6: version canonicalization maps "v1.2.3", "1.2.3" and "V 1.2.3" to the
same token "1.2.3", and follows the priority rules: undefined/empty input
yields none; a weekly-pattern match is returned verbatim; otherwise a
major.minor.patch triple is returned; otherwise the trimmed lowercased input
with one optional leading `v`/`v-`/`v ` prefix stripped. -/
theorem c6_canonicalize_rules :
    (extractVersionIdentifier (some "v1.2.3") = some "1.2.3"
      ∧ extractVersionIdentifier (some "1.2.3") = some "1.2.3"
      ∧ extractVersionIdentifier (some "V 1.2.3") = some "1.2.3")
    ∧ extractVersionIdentifier none = none
    ∧ extractVersionIdentifier (some "") = none
    ∧ (∀ (s : String) (w : List Char),
        findWeekly (normalizeVersion s) = some w →
        extractVersionIdentifier (some s) = some ⟨w⟩)
    ∧ (∀ (s : String) (t : List Char),
        findWeekly (normalizeVersion s) = none →
        findSemver (normalizeVersion s) = some t →
        extractVersionIdentifier (some s) = some ⟨t⟩)
    ∧ (∀ s : String, s ≠ "" → normalizeVersion s ≠ [] →
        findWeekly (normalizeVersion s) = none →
        findSemver (normalizeVersion s) = none →
        extractVersionIdentifier (some s) = some ⟨stripLeadingV (normalizeVersion s)⟩) := by
  refine ⟨⟨by decide, by decide, by decide⟩, rfl, by decide, ?_, ?_, ?_⟩
  · intro s w h
    have hs : ¬ s = "" := by
      intro hs; subst hs
      rw [show normalizeVersion "" = [] from rfl] at h
      simp [findWeekly] at h
    have hn : ¬ normalizeVersion s = [] := by
      intro hn; rw [hn] at h; simp [findWeekly] at h
    simp only [extractVersionIdentifier]
    rw [if_neg hs, if_neg hn, h]
  · intro s t hw hsv
    have hs : ¬ s = "" := by
      intro hs; subst hs
      rw [show normalizeVersion "" = [] from rfl] at hsv
      simp [findSemver] at hsv
    have hn : ¬ normalizeVersion s = [] := by
      intro hn; rw [hn] at hsv; simp [findSemver] at hsv
    simp only [extractVersionIdentifier]
    rw [if_neg hs, if_neg hn, hw, hsv]
  · intro s hs hn hw hsv
    simp only [extractVersionIdentifier]
    rw [if_neg hs, if_neg hn, hw, hsv]

/-- Witness for C6: the weekly rule fires verbatim on a concrete input. -/
theorem c6_witness :
    extractVersionIdentifier (some "V weekly.2025.3-suffix") = some "weekly.2025.3" :=
  (c6_canonicalize_rules.2.2.2.1 "V weekly.2025.3-suffix" "weekly.2025.3".data
    (by decide)).trans (by decide)

/-- C8: `canonicalize("weekly.2024.15")` returns the weekly tag verbatim, a
token distinct from every token of semver-triple shape; and an installed
version that canonicalizes to a weekly token is never up to date against a
target that canonicalizes to a semver triple. -/
theorem c8_weekly_vs_semver :
    extractVersionIdentifier (some "weekly.2024.15") = some "weekly.2024.15"
    ∧ (∀ t : String, semverTriple t = true → ("weekly.2024.15" : String) ≠ t)
    ∧ (∀ (inst tgt : Option String) (w t : String),
        extractVersionIdentifier inst = some w → weeklyTokenStart w = true →
        extractVersionIdentifier tgt = some t → semverTriple t = true →
        isUpToDate inst tgt = false) := by
  have semver_head : ∀ t : String, semverTriple t = true →
      ∃ c cs, t.data = c :: cs ∧ c.isDigit = true := by
    intro t ht
    have hm : matchSemverAt t.data = some t.data := by
      simpa [semverTriple] using ht
    exact matchSemverAt_head _ _ hm
  have weekly_head : ∀ w : String, weeklyTokenStart w = true →
      ∃ bs, w.data = 'w' :: bs := by
    intro w hw
    have hw2 : lcStarts ('w' :: "eekly.".data) w.data = true := hw
    obtain ⟨bs, hbs, _⟩ := lcStarts_cons 'w' _ _ hw2
    exact ⟨bs, hbs⟩
  have wne : ∀ w t : String, weeklyTokenStart w = true → semverTriple t = true →
      w ≠ t := by
    intro w t hw ht
    obtain ⟨bs, hwd⟩ := weekly_head w hw
    obtain ⟨c, cs, htd, hdig⟩ := semver_head t ht
    apply string_ne_of_data_ne
    rw [hwd, htd]
    intro hEq
    injection hEq with h1 _
    rw [← h1] at hdig
    exact absurd hdig (by decide)
  refine ⟨by decide, fun t ht => wne _ t (by decide) ht, ?_⟩
  intro inst tgt w t hiw hw hit ht
  obtain ⟨bs, hwd⟩ := weekly_head w hw
  obtain ⟨c, cs, htd, hdig⟩ := semver_head t ht
  have htne : ¬ t = "" := by
    intro h; rw [h] at htd; simp at htd
  have hwne2 : ¬ w = "" := by
    intro h; rw [h] at hwd; simp at hwd
  have hne := wne w t hw ht
  simp [isUpToDate, hit, hiw, htne, hwne2, hne]

/-- Witness for C8: a weekly-tagged install against a semver-tagged target. -/
theorem c8_witness : isUpToDate (some "weekly.2024.15") (some "v1.2.3") = false :=
  c8_weekly_vs_semver.2.2 (some "weekly.2024.15") (some "v1.2.3")
    "weekly.2024.15" "1.2.3" (by decide) (by decide) (by decide) (by decide)

/-- C4: stable resolution keeps exactly the releases with draft=false,
prerelease=false and a tag not starting with "weekly.", returns the first such
survivor in server order no matter how many non-qualifying entries precede it,
and fails with the no-stable-release error when none survives. -/
theorem c4_resolve_stable :
    ∀ (f : StableFetchEnv) (platform arch : String),
      f.ok = true → f.isArray = true →
      ((∀ r ∈ f.items.filterMap id, stableFilter r = false) →
          getLatestStableAssetUrl f platform arch = .error .noStableRelease)
      ∧ (∀ (pre : List GitHubRelease) (r : GitHubRelease) (post : List GitHubRelease),
          f.items.filterMap id = pre ++ r :: post →
          (∀ x ∈ pre, stableFilter x = false) → stableFilter r = true →
          getLatestStableAssetUrl f platform arch =
            match selectAssetForPlatform platform arch r.assets with
            | none => .error .noMatchingBinary
            | some asset => .ok ⟨asset.browser_download_url, r.tag_name⟩) := by
  intro f platform arch hok harr
  have hok2 : ¬ f.ok = false := by simp [hok]
  have harr2 : ¬ f.isArray = false := by simp [harr]
  constructor
  · intro hall
    simp only [getLatestStableAssetUrl]
    rw [if_neg hok2, if_neg harr2, find?_all_none _ _ hall]
  · intro pre r post hsplit hpre hr
    simp only [getLatestStableAssetUrl]
    rw [if_neg hok2, if_neg harr2, hsplit, find?_append_first _ pre r post hpre hr]

/-- Witness for C4: a list holding a draft, a prerelease and then a qualifying
stable release resolves to the stable one and its platform asset. -/
theorem c4_witness :
    getLatestStableAssetUrl listFetch "linux" "arm64"
      = .ok ⟨"https://g/stable.tar.gz", "0.4.9"⟩ :=
  ((c4_resolve_stable listFetch "linux" "arm64" rfl rfl).2
    [draftRelease, preRelease] stableRelease [] (by decide) (by decide)
    (by decide)).trans (by decide)

/-- C5: the fresh-install dispatch on the configured release channel: "stable"
resolves the latest stable release and installs its asset, "nightly" resolves
the provider's latest release and installs its asset, "custom" builds from the
configured source path, and any unrecognized or unset channel falls back to
building from source. -/
theorem c5_install_dispatch :
    ∀ (e : OrchEnv) (s : FsState),
      (e.releaseChannel = some "stable" →
        installV e s =
          match getLatestStableAssetUrl e.stableFetch e.platform e.arch with
          | .error er => (.error er, s)
          | .ok info =>
            ((installVFromAsset e.installEnv info.url info.version false s).result,
              (installVFromAsset e.installEnv info.url info.version false s).final))
      ∧ (e.releaseChannel = some "nightly" →
          installV e s =
            match getLatestAssetUrl e.latestFetch e.platform e.arch with
            | .error er => (.error er, s)
            | .ok info =>
              ((installVFromAsset e.installEnv info.url info.version false s).result,
                (installVFromAsset e.installEnv info.url info.version false s).final))
      ∧ (e.releaseChannel = some "custom" →
          installV e s = ((buildVfromPath e.buildEnv).map fun _ => (), s))
      ∧ (∀ c, e.releaseChannel = some c →
          c ≠ "stable" → c ≠ "nightly" → c ≠ "custom" →
          installV e s = ((buildVfromPath e.buildEnv).map fun _ => (), s))
      ∧ (e.releaseChannel = none →
          installV e s = ((buildVfromPath e.buildEnv).map fun _ => (), s)) := by
  intro e s
  refine ⟨?_, ?_, ?_, ?_, ?_⟩
  · intro h
    simp only [installV, h]
    rw [if_pos trivial]
  · intro h
    simp only [installV, h]
    rw [if_neg (by decide : ¬ ("nightly" : String) = "stable"), if_pos trivial]
  · intro h
    simp only [installV, h]
    rw [if_neg (by decide : ¬ ("custom" : String) = "stable"),
      if_neg (by decide : ¬ ("custom" : String) = "nightly"), if_pos trivial]
  · intro c h h1 h2 h3
    simp only [installV, h]
    rw [if_neg h1, if_neg h2, if_neg h3]
  · intro h
    simp only [installV, h]

/-- Witness for C5: an unrecognized channel string dispatches to the source
build. -/
theorem c5_witness :
    installV { installedEnv with releaseChannel := some "beta" } priorState
      = ((buildVfromPath buildOk).map fun _ => (), priorState) :=
  (c5_install_dispatch { installedEnv with releaseChannel := some "beta" }
    priorState).2.2.2.1 "beta" rfl (by decide) (by decide) (by decide)

/-- C10: when a binary is already present, `checkUpdates` treats every channel
other than "custom" and "nightly" — including unrecognized strings and an
unset channel — as the stable channel and runs the stable
resolve/compare/reinstall procedure, whereas the fresh-install dispatch sends
the same unrecognized (or unset) channel to the source build. -/
theorem c10_update_vs_install_fallback :
    ∀ (e : OrchEnv) (ch : Option String) (s : FsState),
      ch ≠ some "custom" → ch ≠ some "nightly" →
      checkUpdates e ch s = stableUpdateCheck e s
      ∧ (e.releaseChannel = ch → ch ≠ some "stable" →
          installV e s = ((buildVfromPath e.buildEnv).map fun _ => (), s)) := by
  intro e ch s h1 h2
  constructor
  · cases ch with
    | none => rfl
    | some c =>
      have hc1 : ¬ c = "custom" := fun hc => h1 (by rw [hc])
      have hc2 : ¬ c = "nightly" := fun hc => h2 (by rw [hc])
      simp only [checkUpdates, Option.getD]
      rw [if_neg hc1, if_neg hc2]
  · intro hch h3
    cases ch with
    | none => simp only [installV, hch]
    | some c =>
      have hc1 : ¬ c = "custom" := fun hc => h1 (by rw [hc])
      have hc2 : ¬ c = "nightly" := fun hc => h2 (by rw [hc])
      have hc3 : ¬ c = "stable" := fun hc => h3 (by rw [hc])
      simp only [installV, hch]
      rw [if_neg hc3, if_neg hc2, if_neg hc1]

/-- Witness for C10: with the unrecognized channel "vnext", the update check
runs the stable procedure while the fresh-install dispatch builds from
source. -/
theorem c10_witness :
    checkUpdates oddChannelEnv (some "vnext") priorState
        = stableUpdateCheck oddChannelEnv priorState
    ∧ installV oddChannelEnv priorState
        = ((buildVfromPath oddChannelEnv.buildEnv).map fun _ => (), priorState) := by
  have h := c10_update_vs_install_fallback oddChannelEnv (some "vnext") priorState
    (by decide) (by decide)
  exact ⟨h.1, h.2 rfl (by decide)⟩

/-- C3 counterexample: channel "stable", no V detected, user consents, and the
release-list fetch fails; the fetch error propagates out of
`handleVinstallation` — the orchestration entry point awaited without a catch
by the activation path — refuting the claim that no acquisition error ever
reaches the caller. -/
theorem c3_counterexample :
    (handleVinstallation freshInstallEnv priorState).1
      = .error (.fetchReleasesFailed 500) := by decide

/-- C3 amended: errors of the update-check path (binary already installed) are
caught inside `checkUpdates` and never escape `handleVinstallation`; only the
forced-removal and consented fresh-install paths propagate errors to the
activation caller. -/
theorem c3_amended :
    ∀ (e : OrchEnv) (s : FsState),
      (e.forceCleanInstall = true → removeV e.removeEnv = .ok ()) →
      (isVInstalled e.vVersionOut).installed = true →
      (handleVinstallation e s).1 = .ok () := by
  intro e s hrm hinst
  simp only [handleVinstallation]
  cases hf : e.forceCleanInstall with
  | false => simp [hinst]
  | true => simp [hrm hf, hinst]

/-- Witness for C3: an installed binary with a stale version; the whole update
pass reports ok at the orchestration boundary. -/
theorem c3_amended_witness : (handleVinstallation installedEnv priorState).1 = .ok () :=
  c3_amended installedEnv priorState (fun h => absurd h (by decide)) (by decide)

/-- C1 counterexample: a binary is present at the target path, the acquisition
attempt fails with a download error, and afterwards the binary is gone — the
pre-download cleanup had already removed it, refuting "the previously
installed binary ... is still present and unchanged after the failure". -/
theorem c1_counterexample :
    priorState.vExec = some ⟨42, true⟩
    ∧ (installVFromAsset brokenDownload "https://g/v_linux.zip" "0.4.9" false
        priorState).result = .error (.downloadFailed "https://g/v_linux.zip")
    ∧ (installVFromAsset brokenDownload "https://g/v_linux.zip" "0.4.9" false
        priorState).final.vExec = none := by decide

/-- C1 amended: an acquisition failure during release resolution (network or
protocol error) leaves the filesystem state untouched; but once
`installVFromAsset` starts, its cleanup step removes the previous install, so
a download, unknown-archive-format, or extraction failure (the latter when the
partial extraction wrote nothing to the final path) aborts the attempt leaving
no binary at the target path rather than the prior one. -/
theorem c1_amended :
    (∀ (e : OrchEnv) (s : FsState) (er : VErr),
        e.releaseChannel = some "stable" →
        getLatestStableAssetUrl e.stableFetch e.platform e.arch = .error er →
        installV e s = (.error er, s))
    ∧ (∀ (env : InstallEnv) (url tag : String) (upd : Bool) (s0 : FsState),
        env.rmDirOk = true → env.rmExecOk = true →
        (env.downloadOk = false
          ∨ (lcEnds ".zip".data (lowerStr url).data = false
              ∧ lcEnds ".tar.gz".data (lowerStr url).data = false)
          ∨ (env.extractOk = false ∧ env.pExtractExec = none)) →
        (installVFromAsset env url tag upd s0).result ≠ .ok ()
          ∧ (installVFromAsset env url tag upd s0).final.vExec = none) := by
  constructor
  · intro e s er h1 h2
    simp only [installV, h1]
    rw [if_pos trivial, h2]
  · intro env url tag upd s0 h1 h2 hf
    have hc := cleanupPrevious_ok env s0 h1 h2
    rcases hf with hdl | ⟨hz, ht⟩ | ⟨hex, hpe⟩
    · refine ⟨?_, ?_⟩ <;>
        · simp only [installVFromAsset, hc, hdl]
          repeat' split
          all_goals simp_all
    · refine ⟨?_, ?_⟩ <;>
        · simp only [installVFromAsset, hc, hz, ht]
          repeat' split
          all_goals simp_all
    · refine ⟨?_, ?_⟩ <;>
        · simp only [installVFromAsset, hc, hex, hpe]
          repeat' split
          all_goals simp_all

/-- Witness for C1: a failing stable resolution leaves the state unchanged,
and a failing download leaves no binary at the target path. -/
theorem c1_amended_witness :
    installV freshInstallEnv priorState
        = (.error (.fetchReleasesFailed 500), priorState)
    ∧ (installVFromAsset brokenDownload "https://g/v_linux.tar.gz" "0.4.9" true
          priorState).result ≠ .ok ()
    ∧ (installVFromAsset brokenDownload "https://g/v_linux.tar.gz" "0.4.9" true
          priorState).final.vExec = none := by
  refine ⟨c1_amended.1 freshInstallEnv priorState (.fetchReleasesFailed 500)
    (by decide) (by decide), ?_, ?_⟩
  · exact (c1_amended.2 brokenDownload "https://g/v_linux.tar.gz" "0.4.9" true
      priorState (by decide) (by decide) (Or.inl (by decide))).1
  · exact (c1_amended.2 brokenDownload "https://g/v_linux.tar.gz" "0.4.9" true
      priorState (by decide) (by decide) (Or.inl (by decide))).2

/-- C2 counterexample: a fully successful install run in which the trace holds
no move/rename operation at all, yet the executable sits at its final path
right after the extraction step with the permission bit still unset (the
`chmodExec` step only comes later) — refuting "the executable appears at its
final path only by an atomic move/rename performed after extraction and
permission-setting have succeeded". -/
theorem c2_counterexample :
    (installVFromAsset smoothInstall "https://g/v_linux_arm64.zip" "0.4.9" false
        priorState).result = .ok ()
    ∧ FsOp.renameToVExec ∉
        ((installVFromAsset smoothInstall "https://g/v_linux_arm64.zip" "0.4.9" false
          priorState).trace.map Prod.fst)
    ∧ (FsOp.extractArchive, (⟨true, some ⟨7, false⟩, some 9⟩ : FsState)) ∈
        (installVFromAsset smoothInstall "https://g/v_linux_arm64.zip" "0.4.9" false
          priorState).trace
    ∧ (installVFromAsset smoothInstall "https://g/v_linux_arm64.zip" "0.4.9" false
        priorState).final.vExec = some ⟨7, true⟩ := by decide

/-- C2 amended: on a successful run the downloaded asset does land in a
temporary file (written while the final path is empty) and the temporary
archive is gone at the end; but there is no atomic move/rename — the
executable reaches its final path as a direct effect of extracting the archive
into the storage directory, and the permission bit is set afterwards in
place. -/
theorem c2_amended :
    ∀ (env : InstallEnv) (url tag : String) (upd : Bool) (s0 : FsState),
      env.rmDirOk = true → env.rmExecOk = true → env.downloadOk = true →
      env.extractOk = true →
      (lcEnds ".zip".data (lowerStr url).data = true
        ∨ lcEnds ".tar.gz".data (lowerStr url).data = true) →
      (installVFromAsset env url tag upd s0).result = .ok ()
      ∧ (installVFromAsset env url tag upd s0).final.tmpFile = none
      ∧ (installVFromAsset env url tag upd s0).final.vExec
          = env.extractedExec.map (fun f => { f with execBit := true })
      ∧ FsOp.renameToVExec ∉
          ((installVFromAsset env url tag upd s0).trace.map Prod.fst)
      ∧ (FsOp.writeTmp env.downloadedContent,
          (⟨false, none, some env.downloadedContent⟩ : FsState)) ∈
            (installVFromAsset env url tag upd s0).trace := by
  intro env url tag upd s0 h1 h2 h3 h4 hfmt
  have hc := cleanupPrevious_ok env s0 h1 h2
  have hops := cleanupPrevious_ops env s0
  have hfmt2 : (lcEnds ".zip".data (lowerStr url).data
      || lcEnds ".tar.gz".data (lowerStr url).data) = true := by
    rcases hfmt with h | h <;> simp [h]
  refine ⟨?_, ?_, ?_, ?_, ?_⟩
  · simp only [installVFromAsset, finishInstall, hc, h3, h4, hfmt2]
    repeat' split
    all_goals simp_all
  · simp only [installVFromAsset, finishInstall, hc, h3, h4, hfmt2]
    repeat' split
    all_goals simp_all
  · simp only [installVFromAsset, finishInstall, hc, h3, h4, hfmt2]
    repeat' split
    all_goals simp_all
  · simp only [installVFromAsset, finishInstall, hc, h3, h4, hfmt2]
    intro hmem
    simp only [List.map_append, List.mem_append, List.mem_map] at hmem
    repeat' split at hmem
    all_goals simp_all [cleanup_no_rename]
  · simp only [installVFromAsset, finishInstall, hc, h3, h4, hfmt2]
    repeat' split
    all_goals simp_all

/-- Witness for C2: the amended statement evaluated on the all-success
environment. -/
theorem c2_amended_witness :
    (installVFromAsset smoothInstall "https://g/v0.4.9.tar.gz" "0.4.9" true
        priorState).result = .ok ()
    ∧ (installVFromAsset smoothInstall "https://g/v0.4.9.tar.gz" "0.4.9" true
        priorState).final.tmpFile = none
    ∧ (installVFromAsset smoothInstall "https://g/v0.4.9.tar.gz" "0.4.9" true
        priorState).final.vExec
        = smoothInstall.extractedExec.map (fun f => { f with execBit := true })
    ∧ FsOp.renameToVExec ∉
        ((installVFromAsset smoothInstall "https://g/v0.4.9.tar.gz" "0.4.9" true
          priorState).trace.map Prod.fst)
    ∧ (FsOp.writeTmp smoothInstall.downloadedContent,
        (⟨false, none, some smoothInstall.downloadedContent⟩ : FsState)) ∈
          (installVFromAsset smoothInstall "https://g/v0.4.9.tar.gz" "0.4.9" true
            priorState).trace :=
  c2_amended smoothInstall "https://g/v0.4.9.tar.gz" "0.4.9" true priorState
    (by decide) (by decide) (by decide) (by decide) (Or.inr (by decide))

end VlangExt
